import Mathlib

/-!
Shallow embedding of the assessment engine of the
Reasoning-Agent-Azure-Landing-Zone-Assessment-Advisor repository
(`engine/scoring.py`, `engine/risk_scoring.py`, `signals/registry.py`,
`evaluators/registry.py`, `signals/types.py`), together with theorems
settling the spec claims about it.

Numbers are modelled as exact rationals (`ℚ`); Python's `round(x, d)`
is modelled exactly on rationals (Python rounds floats half-to-even,
the model rounds half-up; no value appearing in the claims sits on a
tie).  A Python dict is an association list whose key order is the
insertion order; `r.get(k)` returning `None` for an absent key is
modelled with `Option`.
-/

set_option autoImplicit false

namespace ALZ

/-- Python `round(q, d)` on exact rationals. -/
def roundTo (d : ℕ) (q : ℚ) : ℚ := (round (q * (10 ^ d : ℚ)) : ℤ) / (10 ^ d : ℚ)

/-! ## `engine/scoring.py` — data model

A flat scoring row holds exactly the keys `engine/scoring.py` reads via
`r.get(...)`; `none` models an absent key (Python `None`).  The source
field `section` is a Lean keyword and is embedded as `section_`. -/

structure Row where
  status : Option String := none
  section_ : Option String := none
  category : Option String := none
  confidence_score : Option ℚ := none
  confidence : Option String := none
  coverage_ratio : Option ℚ := none
  deriving Repr, DecidableEq

/-- `CONFIDENCE_FLOOR` from `engine/scoring.py`. -/
def CONFIDENCE_FLOOR : ℚ := 3 / 10

/-- `CONFIDENCE_LABEL` from `signals/types.py`. -/
def CONFIDENCE_LABEL : List (String × ℚ) := [("High", 1), ("Medium", 7 / 10), ("Low", 3 / 10)]

/-- `AUTO_STATUSES` from `engine/scoring.py`. -/
def AUTO_STATUSES : List String := ["Pass", "Fail", "Partial", "Info", "NotApplicable"]

/-- `MANUAL_STATUSES` from `engine/scoring.py`. -/
def MANUAL_STATUSES : List String := ["Manual"]

/-- `NA_STATUSES` from `engine/scoring.py`. -/
def NA_STATUSES : List String := ["NotApplicable"]

/-- `NON_MATURITY_STATUSES` from `engine/scoring.py`. -/
def NON_MATURITY_STATUSES : List String := ["Manual", "SignalError"]

/-- `SIGNAL_ERROR_STATUSES` from `engine/scoring.py`. -/
def SIGNAL_ERROR_STATUSES : List String := ["SignalError"]

/-- Python `r.get("status") in S` (`None` is never a member). -/
def statusIn (r : Row) (s : List String) : Bool :=
  match r.status with
  | some st => s.contains st
  | none => false

/-- Python string truthiness on an optional value: `None` and `""` are falsy. -/
def truthyStr : Option String → Option String
  | some s => if s = "" then none else some s
  | none => none

/-! ## `automation_coverage` (`engine/scoring.py` lines 41–64) -/

structure AutomationCoverage where
  total_controls : ℕ
  automated_controls : ℕ
  manual_controls : ℕ
  not_applicable_controls : ℕ
  signal_error_controls : ℕ
  automation_percent : ℚ
  automation_integrity : ℚ
  data_driven : ℕ
  requires_customer_input : ℕ
  deriving Repr, DecidableEq

def automation_coverage (results : List Row) (total_controls : ℕ) : AutomationCoverage :=
  let automated := results.countP (fun r => statusIn r AUTO_STATUSES)
  let manual := results.countP (fun r => statusIn r MANUAL_STATUSES)
  let not_applicable := results.countP (fun r => statusIn r NA_STATUSES)
  let signal_errors := results.countP (fun r => statusIn r SIGNAL_ERROR_STATUSES)
  let pct : ℚ :=
    if total_controls ≠ 0 then roundTo 1 ((automated : ℚ) / (total_controls : ℚ) * 100) else 0
  let attempted := automated + signal_errors
  let automation_integrity : ℚ :=
    if attempted ≠ 0 then roundTo 4 (1 - (signal_errors : ℚ) / (attempted : ℚ)) else 1
  { total_controls := total_controls
    automated_controls := automated
    manual_controls := manual
    not_applicable_controls := not_applicable
    signal_error_controls := signal_errors
    automation_percent := pct
    automation_integrity := automation_integrity
    data_driven := automated
    requires_customer_input := manual }

/-! ## `_effective_confidence` and `section_scores` (`engine/scoring.py` lines 66–131) -/

def _effective_confidence (r : Row) : ℚ :=
  match r.confidence_score with
  | some cs => max cs CONFIDENCE_FLOOR
  | none =>
    let label := r.confidence.getD "High"
    max ((CONFIDENCE_LABEL.lookup label).getD (7 / 10)) CONFIDENCE_FLOOR

/-- `r.get("section") or r.get("category") or "Unknown"` (Python truthiness). -/
def sectionKey (r : Row) : String :=
  (((truthyStr r.section_).or (truthyStr r.category)).getD "Unknown")

/-- Append `r` to the bucket of key `k`, creating the bucket at the end if
absent — `defaultdict(list)` grouping with dict insertion order. -/
def insertRow (acc : List (String × List Row)) (k : String) (r : Row) :
    List (String × List Row) :=
  match acc with
  | [] => [(k, [r])]
  | (k', rs) :: t => if k' = k then (k', rs ++ [r]) :: t else (k', rs) :: insertRow t k r

def groupBySection (results : List Row) : List (String × List Row) :=
  results.foldl (fun acc r => insertRow acc (sectionKey r) r) []

/-- Bump the count of key `k` in an insertion-ordered counter (`defaultdict(int)`). -/
def bumpCount (acc : List (String × ℕ)) (k : String) : List (String × ℕ) :=
  match acc with
  | [] => [(k, 1)]
  | (k', n) :: t => if k' = k then (k', n + 1) :: t else (k', n) :: bumpCount t k

structure SectionScore where
  section_ : String
  counts : List (String × ℕ)
  automated_controls : ℕ
  automated_pass : ℕ
  automated_fail : ℕ
  total_controls : ℕ
  maturity_percent : Option ℚ
  avg_coverage_percent : Option ℚ
  deriving Repr, DecidableEq

/-- The automated-item filter of `section_scores`: status in `AUTO_STATUSES`
and not in `NA_STATUSES`. -/
def isAutomatedRow (r : Row) : Bool :=
  statusIn r AUTO_STATUSES && !statusIn r NA_STATUSES

def mkSectionScore (sec : String) (items : List Row) : SectionScore :=
  let counts := items.foldl (fun acc r => bumpCount acc ((truthyStr r.status).getD "Unknown")) []
  let automated_items := items.filter isAutomatedRow
  let auto_total := automated_items.length
  let auto_pass := (automated_items.filter (fun r => r.status == some "Pass")).length
  let auto_fail := (automated_items.filter (fun r => r.status == some "Fail")).length
  let maturity : Option ℚ :=
    if auto_total > 0 then
      let total_weight := (automated_items.map _effective_confidence).sum
      let pass_weight :=
        ((automated_items.filter (fun r => r.status == some "Pass")).map _effective_confidence).sum
      some (if total_weight ≠ 0 then roundTo 1 (pass_weight / total_weight * 100) else 0)
    else none
  let coverage_items := items.filter (fun r => r.coverage_ratio ≠ none)
  let avg_coverage : Option ℚ :=
    if coverage_items ≠ [] then
      some (roundTo 1 ((coverage_items.map (fun r => r.coverage_ratio.getD 0)).sum /
        (coverage_items.length : ℚ) * 100))
    else none
  { section_ := sec
    counts := counts
    automated_controls := auto_total
    automated_pass := auto_pass
    automated_fail := auto_fail
    total_controls := items.length
    maturity_percent := maturity
    avg_coverage_percent := avg_coverage }

/-- Sort key of `section_scores`: `(maturity is None, maturity or 9999)`,
ascending, stable. -/
def sectionSortLE (a b : SectionScore) : Bool :=
  let ka : ℕ := if a.maturity_percent = none then 1 else 0
  let kb : ℕ := if b.maturity_percent = none then 1 else 0
  (ka < kb) || (ka = kb && a.maturity_percent.getD 9999 ≤ b.maturity_percent.getD 9999)

/-- Python's `list.sort` is stable, so any stable sort with the same key
produces the same list; `List.insertionSort` is stable in the same sense
(an earlier element precedes a later key-equal one). -/
def section_scores (results : List Row) : List SectionScore :=
  List.insertionSort (fun a b => sectionSortLE a b = true)
    ((groupBySection results).map (fun p => mkSectionScore p.1 p.2))

/-! ## `overall_maturity` (`engine/scoring.py` lines 133–139) -/

def overall_maturity (sections : List SectionScore) : ℚ :=
  let total_auto : ℕ := (sections.map (·.automated_controls)).sum
  if total_auto = 0 then 0
  else
    let total_pass : ℕ := (sections.map (·.automated_pass)).sum
    roundTo 1 ((total_pass : ℚ) / (total_auto : ℚ) * 100)

/-- Modelled from the spec's words, for comparison with `overall_maturity`:
"overall maturity: automated-count-weighted average of section maturities",
the section maturity being the confidence-weighted `maturity_percent`. -/
def claimedOverallMaturity (sections : List SectionScore) : ℚ :=
  let total_auto : ℕ := (sections.map (·.automated_controls)).sum
  if total_auto = 0 then 0
  else
    ((sections.map (fun s => (s.automated_controls : ℚ) * s.maturity_percent.getD 0)).sum) /
      (total_auto : ℚ)

/-! ## Lemmas about the grouping in `section_scores` -/

/-- Row classified `Pass` by `section_scores` (`r.get("status") == "Pass"`). -/
def passRow (r : Row) : Bool := r.status == some "Pass"

/-- Count of rows satisfying `p` across all buckets of a grouping. -/
def sumOver (gs : List (String × List Row)) (p : Row → Bool) : ℕ :=
  (gs.map (fun g => g.2.countP p)).sum

theorem sumOver_insertRow (p : Row → Bool) (k : String) (r : Row) (acc : List (String × List Row)) :
    sumOver (insertRow acc k r) p = sumOver acc p + (if p r then 1 else 0) := by
  induction acc with
  | nil => simp [insertRow, sumOver, List.countP_cons]
  | cons hd t ih =>
    obtain ⟨k', rs⟩ := hd
    by_cases hk : k' = k
    · simp [insertRow, hk, sumOver, List.countP_append, List.countP_cons]
      omega
    · simp only [insertRow, hk, if_false, sumOver, List.map_cons, List.sum_cons]
      simp only [sumOver] at ih
      omega

theorem sumOver_groupFold (p : Row → Bool) (rows : List Row) :
    ∀ acc, sumOver (rows.foldl (fun a r => insertRow a (sectionKey r) r) acc) p =
      sumOver acc p + rows.countP p := by
  induction rows with
  | nil => intro acc; simp
  | cons r t ih =>
    intro acc
    simp only [List.foldl_cons, List.countP_cons]
    rw [ih, sumOver_insertRow]
    by_cases hp : p r
    · rw [if_pos hp]; omega
    · rw [if_neg hp]; omega

theorem sumOver_groupBySection (p : Row → Bool) (rows : List Row) :
    sumOver (groupBySection rows) p = rows.countP p := by
  have := sumOver_groupFold p rows []
  simpa [groupBySection, sumOver] using this

theorem passRow_isAutomated (r : Row) (h : passRow r = true) : isAutomatedRow r = true := by
  have hst : r.status = some "Pass" := by
    simpa [passRow] using h
  simp [isAutomatedRow, statusIn, hst, AUTO_STATUSES, NA_STATUSES]

theorem filter_auto_pass_length (l : List Row) :
    ((l.filter isAutomatedRow).filter passRow).length = l.countP passRow := by
  have hfun : (fun r : Row => passRow r && isAutomatedRow r) = passRow := by
    funext r
    cases hp : passRow r
    · simp
    · simp [passRow_isAutomated r hp]
  rw [List.filter_filter, ← List.countP_eq_length_filter, hfun]

theorem mkSectionScore_automated (sec : String) (items : List Row) :
    (mkSectionScore sec items).automated_controls = items.countP isAutomatedRow := by
  simp [mkSectionScore, List.countP_eq_length_filter]

theorem mkSectionScore_pass (sec : String) (items : List Row) :
    (mkSectionScore sec items).automated_pass = items.countP passRow := by
  simpa [mkSectionScore, passRow] using filter_auto_pass_length items

theorem section_scores_sum_automated (rows : List Row) :
    ((section_scores rows).map (·.automated_controls)).sum = rows.countP isAutomatedRow := by
  have hperm :
      (section_scores rows).Perm ((groupBySection rows).map (fun p => mkSectionScore p.1 p.2)) :=
    List.perm_insertionSort _ _
  rw [(hperm.map (·.automated_controls)).sum_eq]
  rw [← sumOver_groupBySection isAutomatedRow rows]
  simp only [sumOver, List.map_map]
  exact congrArg List.sum (List.map_congr_left fun p _ => by simp [mkSectionScore_automated])

theorem section_scores_sum_pass (rows : List Row) :
    ((section_scores rows).map (·.automated_pass)).sum = rows.countP passRow := by
  have hperm :
      (section_scores rows).Perm ((groupBySection rows).map (fun p => mkSectionScore p.1 p.2)) :=
    List.perm_insertionSort _ _
  rw [(hperm.map (·.automated_pass)).sum_eq]
  rw [← sumOver_groupBySection passRow rows]
  simp only [sumOver, List.map_map]
  exact congrArg List.sum (List.map_congr_left fun p _ => by simp [mkSectionScore_pass])

/-! ## Claim C3 -/

/-- One section with a `Pass` at confidence 1.0 and a `Fail` at confidence 0.5:
the count-based and the confidence-weighted pass ratios differ. -/
def exC3 : List Row :=
  [{ status := some "Pass", section_ := some "A", confidence_score := some 1 },
   { status := some "Fail", section_ := some "A", confidence_score := some (1 / 2) }]

/-- C3, counterexample: `overall_maturity` over `exC3` is 50.0 (the plain
pass-count ratio), while the automated-count-weighted average of the
confidence-weighted section maturities — the value the claim specifies —
is 66.7; the two disagree. -/
theorem c3_overall_maturity_counterexample :
    overall_maturity (section_scores exC3) = 50 ∧
    claimedOverallMaturity (section_scores exC3) = 667 / 10 ∧
    overall_maturity (section_scores exC3) ≠ claimedOverallMaturity (section_scores exC3) := by
  have h1 : overall_maturity (section_scores exC3) = 50 := by
    simp +decide [overall_maturity, section_scores, groupBySection, insertRow, mkSectionScore,
      sectionKey, truthyStr, isAutomatedRow, statusIn, AUTO_STATUSES, NA_STATUSES, exC3,
      List.insertionSort, List.orderedInsert, _effective_confidence, CONFIDENCE_FLOOR,
      bumpCount, roundTo, round_eq, sectionSortLE, List.filter, List.countP]
    norm_num
  have h2 : claimedOverallMaturity (section_scores exC3) = 667 / 10 := by
    simp +decide [claimedOverallMaturity, section_scores, groupBySection, insertRow,
      mkSectionScore, sectionKey, truthyStr, isAutomatedRow, statusIn, AUTO_STATUSES,
      NA_STATUSES, exC3, List.insertionSort, List.orderedInsert, _effective_confidence,
      CONFIDENCE_FLOOR, bumpCount, roundTo, round_eq, sectionSortLE, List.filter, List.countP]
    norm_num
  refine ⟨h1, h2, ?_⟩
  rw [h1, h2]
  norm_num

/-- C3 (amended): `overall_maturity` of the computed section scores equals the
plain (unweighted) pass-count ratio over all automated non-NotApplicable rows,
`round(100·#Pass/#automated, 1)` — equivalently, the automated-count-weighted
average of the sections' unweighted pass ratios.  Per-control confidence
weights enter only the per-section `maturity_percent`, not the overall value. -/
theorem c3_overall_maturity_pass_count_ratio (rows : List Row)
    (h : rows.countP isAutomatedRow ≠ 0) :
    overall_maturity (section_scores rows) =
      roundTo 1 ((rows.countP passRow : ℚ) / (rows.countP isAutomatedRow : ℚ) * 100) := by
  simp only [overall_maturity, section_scores_sum_automated, section_scores_sum_pass]
  rw [if_neg h]

/-- Witness for `c3_overall_maturity_pass_count_ratio` at `exC3`. -/
theorem c3_overall_maturity_pass_count_ratio_witness :
    exC3.countP isAutomatedRow ≠ 0 ∧
    overall_maturity (section_scores exC3) =
      roundTo 1 ((exC3.countP passRow : ℚ) / (exC3.countP isAutomatedRow : ℚ) * 100) :=
  ⟨by decide, c3_overall_maturity_pass_count_ratio exC3 (by decide)⟩

/-! ## Claim C4 -/

/-- Rows whose status is in none of `AUTO_STATUSES`, `MANUAL_STATUSES`,
`SIGNAL_ERROR_STATUSES` (e.g. `Error`, `Unknown`, or a missing status). -/
def unclassifiedCount (results : List Row) : ℕ :=
  results.countP (fun r =>
    !(statusIn r AUTO_STATUSES || statusIn r MANUAL_STATUSES ||
      statusIn r SIGNAL_ERROR_STATUSES))

theorem status_classification (r : Row) :
    (if statusIn r AUTO_STATUSES then 1 else 0) +
      (if statusIn r MANUAL_STATUSES then 1 else 0) +
      (if statusIn r SIGNAL_ERROR_STATUSES then 1 else 0) +
      (if !(statusIn r AUTO_STATUSES || statusIn r MANUAL_STATUSES ||
            statusIn r SIGNAL_ERROR_STATUSES) then 1 else 0) = (1 : ℕ) := by
  cases hst : r.status with
  | none => simp [statusIn, hst]
  | some st =>
    simp only [statusIn, hst]
    by_cases h1 : st = "Manual"
    · subst h1; decide
    · by_cases h2 : st = "SignalError"
      · subst h2; decide
      · have hm : st ∉ MANUAL_STATUSES := by simp [MANUAL_STATUSES, h1]
        have hs : st ∉ SIGNAL_ERROR_STATUSES := by simp [SIGNAL_ERROR_STATUSES, h2]
        by_cases h3 : st ∈ AUTO_STATUSES <;> simp [h3, hm, hs]

/-- C4, counterexample: with one `Error`-status result the four counters of the
claim sum to 0, not 1; with one `NotApplicable` result they sum to 2, not 1
(`NotApplicable` is a member of `AUTO_STATUSES`, so it is counted both as
automated and as not-applicable). -/
theorem c4_sum_identity_counterexample :
    ((automation_coverage [{ status := some "Error" }] 1).automated_controls +
       (automation_coverage [{ status := some "Error" }] 1).manual_controls +
       (automation_coverage [{ status := some "Error" }] 1).not_applicable_controls +
       (automation_coverage [{ status := some "Error" }] 1).signal_error_controls ≠
     (automation_coverage [{ status := some "Error" }] 1).total_controls) ∧
    ((automation_coverage [{ status := some "NotApplicable" }] 1).automated_controls +
       (automation_coverage [{ status := some "NotApplicable" }] 1).manual_controls +
       (automation_coverage [{ status := some "NotApplicable" }] 1).not_applicable_controls +
       (automation_coverage [{ status := some "NotApplicable" }] 1).signal_error_controls ≠
     (automation_coverage [{ status := some "NotApplicable" }] 1).total_controls) := by
  constructor <;> decide

/-- C4 (amended): for every result list (with `total_controls` the length of
the list), `automated_controls + manual_controls + signal_error_controls +
unclassified == total_controls`, where `unclassified` counts the results whose
status falls in none of the three status sets; `not_applicable_controls` is
already contained in `automated_controls` and is not a separate summand. -/
theorem c4_counter_partition (results : List Row) :
    (automation_coverage results results.length).automated_controls +
      (automation_coverage results results.length).manual_controls +
      (automation_coverage results results.length).signal_error_controls +
      unclassifiedCount results =
    (automation_coverage results results.length).total_controls := by
  simp only [automation_coverage, unclassifiedCount]
  induction results with
  | nil => simp
  | cons r t ih =>
    simp only [List.countP_cons, List.length_cons] at *
    have hclass := status_classification r
    omega

/-! ## `signals/registry.py` — Python values and the generic raw-dict merge

A Python value as it occurs in a signal's `raw` payload: `None`, `bool`,
`int`, `float`, `str`, `list`, or `dict` (association list in insertion
order).  `bool` is a subclass of `int` in Python, so numeric filters
(`isinstance(v, (int, float))`) accept booleans. -/

inductive PyVal where
  | pNone
  | pBool (b : Bool)
  | pInt (n : ℤ)
  | pFloat (q : ℚ)
  | pStr (s : String)
  | pList (xs : List PyVal)
  | pDict (entries : List (String × PyVal))
  deriving Repr

abbrev PyDict := List (String × PyVal)

/-- Python truthiness. -/
def pyTruthy : PyVal → Bool
  | .pNone => false
  | .pBool b => b
  | .pInt n => n != 0
  | .pFloat q => q != 0
  | .pStr s => s ≠ ""
  | .pList xs => !xs.isEmpty
  | .pDict es => !es.isEmpty

/-- `d.get(k)` / `k in d`: first entry with key `k`. -/
def dget (d : PyDict) (k : String) : Option PyVal :=
  (d.find? (fun e => e.1 == k)).map (·.2)

/-- `d[k] = v`: replace in place if the key exists, else append. -/
def dset (d : PyDict) (k : String) (v : PyVal) : PyDict :=
  match d with
  | [] => [(k, v)]
  | (k', v') :: t => if k' = k then (k', v) :: t else (k', v') :: dset t k v

/-- `isinstance(v, (int, float))` (booleans included), as an exact value. -/
def numVal? : PyVal → Option ℚ
  | .pBool b => some (if b then 1 else 0)
  | .pInt n => some (n : ℚ)
  | .pFloat q => some q
  | _ => none

/-- Integer-typed view for Python `sum` over ints/bools (no float present). -/
def intLike : PyVal → Option ℤ
  | .pBool b => some (if b then 1 else 0)
  | .pInt n => some n
  | _ => none

def isFloatVal : PyVal → Bool
  | .pFloat _ => true
  | _ => false

def toDict? : PyVal → Option PyDict
  | .pDict d => some d
  | _ => none

def toListVal : PyVal → List PyVal
  | .pList xs => xs
  | _ => []

def boolOf : PyVal → Bool
  | .pBool b => b
  | _ => false

/-- Python `sum` over the numeric members of `vs`: an `int` unless a float
contributes, then a `float`. -/
def sumNum (vs : List PyVal) : PyVal :=
  if vs.any isFloatVal then .pFloat ((vs.filterMap numVal?).sum)
  else .pInt ((vs.filterMap intLike).sum)

/-- `v.get(k, 0)` read numerically (non-numeric values, which would raise a
`TypeError` in the source, read as 0). -/
def covField (d : PyDict) (k : String) : PyVal := (dget d k).getD (.pInt 0)

def pyValNum (v : PyVal) : ℚ := (numVal? v).getD 0

/-- Union of the keys of all dicts, first-seen order (`set` in the source;
its iteration order is unspecified, and no theorem below depends on it). -/
def keyUnion (ks : List String) : List String :=
  ks.foldl (fun acc k => if k ∈ acc then acc else acc ++ [k]) []

/-- One entry of the `_PERCENT_RECOMPUTE` pass: overwrite `pf` from the merged
numerator `num` and denominator `den` when both `pf` and `den` are present and
the denominator is truthy and positive (a non-numeric denominator, which would
raise a `TypeError` in the source, leaves the dict unchanged). -/
def pcStep (m : PyDict) (pf num den : String) (f : ℚ → ℚ → ℚ) : PyDict :=
  match dget m pf, dget m den with
  | some _, some dv =>
    match numVal? dv with
    | some dq =>
      if 0 < dq then dset m pf (.pFloat (f (pyValNum (covField m num)) dq)) else m
    | none => m
  | _, _ => m

/-- The `_PERCENT_RECOMPUTE` pass of `_merge_raw_dicts`: recompute
`compliance_percent` and `diag_coverage_percent` from their summed
numerator/denominator when present with a positive denominator. -/
def percentRecompute (m : PyDict) : PyDict :=
  pcStep
    (pcStep m "compliance_percent" "noncompliant_resources" "total_resources"
      (fun nonc dq => roundTo 1 ((dq - nonc) / dq * 100)))
    "diag_coverage_percent" "diag_enabled_count" "sample_size"
    (fun en dq => roundTo 1 (en / dq * 100))

mutual

/-- `_merge_raw_dicts` (`signals/registry.py` lines 72–149), fuel-indexed: the
fuel only bounds the nesting depth of recursively merged sub-dicts and is
irrelevant above that bound (`mergeFuel_stable`). -/
def mergeFuel : ℕ → List PyDict → PyDict
  | _, [] => []
  | _, [d] => d
  | 0, _ => []
  | n + 1, ds =>
    let keys := keyUnion (ds.flatMap (fun d => d.map (·.1)))
    keys.filterMap (fun k => (mergeVal? n ds k).map (fun v => (k, v))) |> percentRecompute
termination_by n _ => (n, 0)

/-- The merged value of one key: the collected per-dict values (skipping
dicts without the key — `if d and key in d`), or nothing when no dict has
the key (`if not values: continue`). -/
def mergeVal? : ℕ → List PyDict → String → Option PyVal
  | n, ds, k =>
    match ds.filterMap (fun d => dget d k) with
    | [] => none
    | values => some (mergeKeyVal n k values)
termination_by n _ _ => (n, 2)

/-- One key's merged value, dispatching on the first value's type exactly as
the source does (coverage dict, bool OR, numeric sum, list concat, recursive
dict merge, first truthy string, else first). -/
def mergeKeyVal : ℕ → String → List PyVal → PyVal
  | n, key, values =>
    match values with
    | [] => .pNone
    | first :: _ =>
      if key = "coverage" ∧ (toDict? first).isSome then
      let dicts := values.filterMap toDict?
      let total_app := sumNum (dicts.map (fun d => covField d "applicable"))
      let total_comp := sumNum (dicts.map (fun d => covField d "compliant"))
      .pDict [("applicable", total_app), ("compliant", total_comp),
              ("ratio", .pFloat (roundTo 4 (pyValNum total_comp / max (pyValNum total_app) 1)))]
      else
      match first with
      | .pBool _ => .pBool (values.any boolOf)
      | .pInt _ => sumNum values
      | .pFloat _ => .pFloat ((values.filterMap numVal?).sum)
      | .pList _ => .pList (values.flatMap toListVal)
      | .pDict _ => .pDict (mergeFuel n (values.filterMap toDict?))
      | .pStr _ => (values.find? pyTruthy).getD first
      | .pNone => first
termination_by n _ _ => (n, 1)

end

/-! Nesting depth of a Python value (dict/list levels). -/
mutual

def pvDepth : PyVal → ℕ
  | .pNone => 0
  | .pBool _ => 0
  | .pInt _ => 0
  | .pFloat _ => 0
  | .pStr _ => 0
  | .pList xs => 1 + pvlDepth xs
  | .pDict es => 1 + pvdDepth es

def pvlDepth : List PyVal → ℕ
  | [] => 0
  | v :: t => max (pvDepth v) (pvlDepth t)

def pvdDepth : List (String × PyVal) → ℕ
  | [] => 0
  | e :: t => max (pvDepth e.2) (pvdDepth t)

end

/-- `_merge_raw_dicts` proper: enough fuel for the whole nesting depth. -/
def _merge_raw_dicts (ds : List PyDict) : PyDict :=
  mergeFuel (1 + (ds.map (fun d => pvDepth (.pDict d))).sum) ds

/-! ### Fuel is irrelevant above the nesting depth -/

theorem pvdDepth_le_of_mem {es : List (String × PyVal)} {e : String × PyVal} (h : e ∈ es) :
    pvDepth e.2 ≤ pvdDepth es := by
  induction es with
  | nil => cases h
  | cons a t ih =>
    rcases List.mem_cons.mp h with h | h
    · subst h; simp [pvdDepth]
    · simp only [pvdDepth]
      exact le_max_of_le_right (ih h)

theorem dget_mem {d : PyDict} {k : String} {v : PyVal} (h : dget d k = some v) : (k, v) ∈ d := by
  unfold dget at h
  cases hfind : d.find? (fun e => e.1 == k) with
  | none => rw [hfind] at h; simp at h
  | some e =>
    rw [hfind] at h
    simp at h
    have hmem := List.mem_of_find?_eq_some hfind
    have hkey : e.1 = k := by simpa using List.find?_some hfind
    have he : e = (k, v) := by
      obtain ⟨e1, e2⟩ := e
      simp only at hkey h
      simp [hkey, h]
    rwa [he] at hmem

theorem depth_of_mergedValues {ds : List PyDict} {k : String} {v : PyVal}
    (h : v ∈ ds.filterMap (fun d => dget d k)) :
    ∃ d ∈ ds, pvDepth v < pvDepth (.pDict d) := by
  obtain ⟨d, hd, hdg⟩ := List.mem_filterMap.mp h
  refine ⟨d, hd, ?_⟩
  have hle : pvDepth v ≤ pvdDepth d := pvdDepth_le_of_mem (dget_mem hdg)
  simp only [pvDepth]
  omega

theorem mergeFuel_stable : ∀ (D m n : ℕ) (ds : List PyDict),
    (∀ d ∈ ds, pvDepth (.pDict d) ≤ D) → D ≤ m → D ≤ n →
    mergeFuel m ds = mergeFuel n ds := by
  intro D
  induction D with
  | zero =>
    intro m n ds hd _ _
    match ds with
    | [] => simp [mergeFuel]
    | d :: rest =>
      exfalso
      have h1 := hd d (List.mem_cons_self d rest)
      simp [pvDepth] at h1
  | succ D ih =>
    intro m n ds hd hm hn
    match ds with
    | [] => simp [mergeFuel]
    | [d] => simp [mergeFuel]
    | d1 :: d2 :: rest =>
      cases m with
      | zero => omega
      | succ m' =>
        cases n with
        | zero => omega
        | succ n' =>
          have hkeyval : ∀ (k : String) (values : List PyVal),
              (∀ v ∈ values, pvDepth v ≤ D) →
              mergeKeyVal m' k values = mergeKeyVal n' k values := by
            intro k values hvb
            match values with
            | [] => simp [mergeKeyVal.eq_def]
            | first :: rest' =>
              simp only [mergeKeyVal.eq_def]
              by_cases hcov : k = "coverage" ∧ (toDict? first).isSome
              · rw [if_pos hcov, if_pos hcov]
              · rw [if_neg hcov, if_neg hcov]
                cases first with
                | pDict es =>
                  have harg :
                      ∀ d' ∈ (PyVal.pDict es :: rest').filterMap toDict?,
                        pvDepth (.pDict d') ≤ D := by
                    intro d' hd'
                    obtain ⟨v, hv, hvd⟩ := List.mem_filterMap.mp hd'
                    cases v with
                    | pDict es' =>
                      simp only [toDict?, Option.some.injEq] at hvd
                      subst hvd
                      exact hvb _ hv
                    | pNone => simp [toDict?] at hvd
                    | pBool b => simp [toDict?] at hvd
                    | pInt i => simp [toDict?] at hvd
                    | pFloat q => simp [toDict?] at hvd
                    | pStr s => simp [toDict?] at hvd
                    | pList xs => simp [toDict?] at hvd
                  have := ih m' n' ((PyVal.pDict es :: rest').filterMap toDict?)
                    harg (by omega) (by omega)
                  simp only [this]
                | pNone => rfl
                | pBool b => rfl
                | pInt i => rfl
                | pFloat q => rfl
                | pStr s => rfl
                | pList xs => rfl
          have hkv : ∀ k : String,
              mergeVal? m' (d1 :: d2 :: rest) k = mergeVal? n' (d1 :: d2 :: rest) k := by
            intro k
            cases hv : (d1 :: d2 :: rest).filterMap (fun d => dget d k) with
            | nil => simp [mergeVal?, hv]
            | cons first rest' =>
              simp only [mergeVal?, hv]
              congr 1
              apply hkeyval
              intro v hvm
              have hvm2 : v ∈ (d1 :: d2 :: rest).filterMap (fun d => dget d k) := by
                rw [hv]; exact hvm
              obtain ⟨d, hdm, hlt⟩ := depth_of_mergedValues hvm2
              have := hd d hdm
              omega
          have hfun :
              (fun k => (mergeVal? m' (d1 :: d2 :: rest) k).map (fun v => (k, v))) =
              (fun k => (mergeVal? n' (d1 :: d2 :: rest) k).map (fun v => (k, v))) :=
            funext fun k => by rw [hkv k]
          simp only [mergeFuel, hfun]

/-! ### Looking a key up in the merged dict -/

theorem dget_nil (k : String) : dget [] k = none := rfl

theorem dget_cons_self (k : String) (v : PyVal) (d : PyDict) :
    dget ((k, v) :: d) k = some v := by
  simp [dget, List.find?]

theorem dget_cons_ne {k' k : String} (v : PyVal) (d : PyDict) (h : k' ≠ k) :
    dget ((k', v) :: d) k = dget d k := by
  have hb : (k' == k) = false := by simp [h]
  simp [dget, List.find?, hb]

theorem dget_dset_ne {k k' : String} (d : PyDict) (v : PyVal) (h : k ≠ k') :
    dget (dset d k' v) k = dget d k := by
  induction d with
  | nil =>
    show dget [(k', v)] k = dget [] k
    rw [dget_cons_ne _ _ (Ne.symm h)]
  | cons e t ih =>
    obtain ⟨ek, ev⟩ := e
    by_cases hk : ek = k'
    · subst hk
      have hd : dset ((ek, ev) :: t) ek v = (ek, v) :: t := by simp [dset]
      rw [hd, dget_cons_ne _ _ (Ne.symm h), dget_cons_ne _ _ (Ne.symm h)]
    · have hd : dset ((ek, ev) :: t) k' v = (ek, ev) :: dset t k' v := by simp [dset, hk]
      rw [hd]
      by_cases hek : ek = k
      · subst hek
        rw [dget_cons_self, dget_cons_self]
      · rw [dget_cons_ne _ _ hek, dget_cons_ne _ _ hek, ih]

theorem dget_pcStep_ne {k pf : String} (m : PyDict) (num den : String) (f : ℚ → ℚ → ℚ)
    (h : k ≠ pf) : dget (pcStep m pf num den f) k = dget m k := by
  unfold pcStep
  cases hpf : dget m pf with
  | none => rfl
  | some pv =>
    cases hden : dget m den with
    | none => rfl
    | some dv =>
      cases hnum : numVal? dv with
      | none => simp [hnum]
      | some dq =>
        simp only [hnum]
        by_cases hq : 0 < dq
        · rw [if_pos hq, dget_dset_ne _ _ h]
        · rw [if_neg hq]

theorem dget_percentRecompute_ne {k : String} (m : PyDict)
    (h1 : k ≠ "compliance_percent") (h2 : k ≠ "diag_coverage_percent") :
    dget (percentRecompute m) k = dget m k := by
  unfold percentRecompute
  rw [dget_pcStep_ne _ _ _ _ h2, dget_pcStep_ne _ _ _ _ h1]

theorem mem_keyUnion_fold (ks : List String) :
    ∀ (acc : List String) (k : String),
      k ∈ ks.foldl (fun acc k => if k ∈ acc then acc else acc ++ [k]) acc ↔
        k ∈ acc ∨ k ∈ ks := by
  induction ks with
  | nil => intro acc k; simp
  | cons k0 t ih =>
    intro acc k
    simp only [List.foldl_cons]
    rw [ih]
    by_cases h0 : k0 ∈ acc
    · rw [if_pos h0]
      constructor
      · rintro (h | h)
        · exact Or.inl h
        · exact Or.inr (List.mem_cons_of_mem _ h)
      · rintro (h | h)
        · exact Or.inl h
        · rcases List.mem_cons.mp h with h | h
          · subst h; exact Or.inl h0
          · exact Or.inr h
    · rw [if_neg h0]
      simp only [List.mem_append, List.mem_singleton, List.mem_cons]
      tauto

theorem nodup_keyUnion_fold (ks : List String) :
    ∀ (acc : List String), acc.Nodup →
      (ks.foldl (fun acc k => if k ∈ acc then acc else acc ++ [k]) acc).Nodup := by
  induction ks with
  | nil => intro acc h; simpa using h
  | cons k0 t ih =>
    intro acc hacc
    simp only [List.foldl_cons]
    by_cases h0 : k0 ∈ acc
    · rw [if_pos h0]; exact ih acc hacc
    · rw [if_neg h0]
      refine ih _ ?_
      simp [List.nodup_append, hacc, h0]

theorem keyUnion_nodup (ks : List String) : (keyUnion ks).Nodup :=
  nodup_keyUnion_fold ks [] List.nodup_nil

theorem mem_keyUnion (ks : List String) (k : String) : k ∈ keyUnion ks ↔ k ∈ ks := by
  rw [keyUnion, mem_keyUnion_fold]
  simp

theorem dget_filterMap_built (g : String → Option PyVal) (k : String) :
    ∀ (keys : List String), keys.Nodup →
      dget (keys.filterMap (fun k' => (g k').map (fun v => (k', v)))) k =
        if k ∈ keys then g k else none := by
  intro keys
  induction keys with
  | nil => intro _; simp [dget_nil]
  | cons k0 t ih =>
    intro hnd
    have hnd' : t.Nodup := (List.nodup_cons.mp hnd).2
    have h0 : k0 ∉ t := (List.nodup_cons.mp hnd).1
    cases hg : g k0 with
    | none =>
      simp only [List.filterMap_cons, hg, Option.map_none']
      rw [ih hnd']
      by_cases hk : k = k0
      · subst hk
        rw [if_neg h0, if_pos (List.mem_cons_self _ _)]
        exact hg.symm
      · simp [List.mem_cons, hk]
    | some v =>
      simp only [List.filterMap_cons, hg, Option.map_some']
      by_cases hk : k0 = k
      · subst hk
        rw [dget_cons_self, if_pos (List.mem_cons_self _ _), hg]
      · rw [dget_cons_ne _ _ hk, ih hnd']
        have hne : k ≠ k0 := fun hh => hk hh.symm
        have hiff : (k ∈ k0 :: t) ↔ k ∈ t := by simp [List.mem_cons, hne]
        rw [if_congr hiff rfl rfl]

theorem mergeVal?_eq_none_of_not_mem {ds : List PyDict} {k : String} (n : ℕ)
    (h : ∀ d ∈ ds, dget d k = none) : mergeVal? n ds k = none := by
  have hv : ds.filterMap (fun d => dget d k) = [] := by
    rw [List.filterMap_eq_nil_iff]
    exact h
  simp [mergeVal?, hv]

/-- The canonical fuel of `_merge_raw_dicts`. -/
def rawDepth (ds : List PyDict) : ℕ := (ds.map (fun d => pvDepth (.pDict d))).sum

theorem dget_merge_raw (ds : List PyDict) (h2 : 2 ≤ ds.length) (k : String)
    (hk1 : k ≠ "compliance_percent") (hk2 : k ≠ "diag_coverage_percent") :
    dget (_merge_raw_dicts ds) k = mergeVal? (rawDepth ds) ds k := by
  match ds, h2 with
  | d1 :: d2 :: rest, _ =>
    show dget (mergeFuel (1 + rawDepth (d1 :: d2 :: rest)) (d1 :: d2 :: rest)) k = _
    rw [show 1 + rawDepth (d1 :: d2 :: rest) = rawDepth (d1 :: d2 :: rest) + 1 by omega]
    simp only [mergeFuel]
    rw [dget_percentRecompute_ne _ hk1 hk2]
    rw [dget_filterMap_built _ _ _ (keyUnion_nodup _)]
    by_cases hmem : k ∈ keyUnion ((d1 :: d2 :: rest).flatMap (fun d => d.map (·.1)))
    · rw [if_pos hmem]
    · rw [if_neg hmem]
      refine (mergeVal?_eq_none_of_not_mem _ ?_).symm
      intro d hd
      rw [mem_keyUnion] at hmem
      cases hdg : dget d k with
      | none => rfl
      | some v =>
        exfalso
        apply hmem
        rw [List.mem_flatMap]
        exact ⟨d, hd, by
          rw [List.mem_map]
          exact ⟨(k, v), dget_mem hdg, rfl⟩⟩

/-! ## Claim C6 -/

/-- The per-subscription values collected for one key of the raw merge. -/
def mergedValues (ds : List PyDict) (k : String) : List PyVal :=
  ds.filterMap (fun d => dget d k)

theorem rawDepth_mem_le {ds : List PyDict} {d : PyDict} (h : d ∈ ds) :
    pvDepth (.pDict d) ≤ rawDepth ds := by
  have hm : pvDepth (.pDict d) ∈ ds.map (fun d => pvDepth (.pDict d)) :=
    List.mem_map_of_mem _ h
  exact List.single_le_sum (fun _ _ => Nat.zero_le _) _ hm

theorem extracted_mem_depth {ds : List PyDict} {k : String} {d' : PyDict}
    (hd' : d' ∈ (mergedValues ds k).filterMap toDict?) :
    pvDepth (.pDict d') ≤ rawDepth ds := by
  obtain ⟨v, hv, hvd⟩ := List.mem_filterMap.mp hd'
  have hveq : v = .pDict d' := by
    cases v <;> simp [toDict?] at hvd
    rw [hvd]
  subst hveq
  obtain ⟨d, hd, hlt⟩ := depth_of_mergedValues hv
  exact le_trans (Nat.le_of_lt hlt) (rawDepth_mem_le hd)

theorem mergeFuel_extracted_eq (ds : List PyDict) (k : String) :
    mergeFuel (rawDepth ds) ((mergedValues ds k).filterMap toDict?) =
      _merge_raw_dicts ((mergedValues ds k).filterMap toDict?) := by
  have hrhs : _merge_raw_dicts ((mergedValues ds k).filterMap toDict?) =
      mergeFuel (1 + rawDepth ((mergedValues ds k).filterMap toDict?))
        ((mergedValues ds k).filterMap toDict?) := rfl
  rw [hrhs]
  apply mergeFuel_stable
    (min (rawDepth ds) (rawDepth ((mergedValues ds k).filterMap toDict?)))
  · intro d' hd'
    exact le_min (extracted_mem_depth hd') (rawDepth_mem_le hd')
  · exact min_le_left _ _
  · exact le_trans (min_le_right _ _) (by omega)

/-- C6 (amended): the generic raw merge is field-wise — int/float values are
summed (booleans counting as ints), booleans are OR'd, lists are concatenated,
strings take the first truthy value (falling back to the first), a dict under
key `coverage` is merged by summing `applicable` and `compliant` and
recomputing `ratio = round(compliant/max(applicable,1), 4)`, and any other
dict-valued key is merged recursively — EXCEPT for the two known percentage
fields `compliance_percent` and `diag_coverage_percent`, which are not summed
but recomputed from their summed numerator/denominator.  The concrete coverage
example merges (10,5)+(20,15) into applicable=30, compliant=20, ratio=0.6667. -/
theorem c6_generic_merge_fieldwise (ds : List PyDict) (h2 : 2 ≤ ds.length) (k : String)
    (hk1 : k ≠ "compliance_percent") (hk2 : k ≠ "diag_coverage_percent") :
    (∀ i rest, mergedValues ds k = .pInt i :: rest →
      dget (_merge_raw_dicts ds) k = some (sumNum (mergedValues ds k))) ∧
    (∀ q rest, mergedValues ds k = .pFloat q :: rest →
      dget (_merge_raw_dicts ds) k =
        some (.pFloat (((mergedValues ds k).filterMap numVal?).sum))) ∧
    (∀ b rest, mergedValues ds k = .pBool b :: rest →
      dget (_merge_raw_dicts ds) k = some (.pBool ((mergedValues ds k).any boolOf))) ∧
    (∀ xs rest, mergedValues ds k = .pList xs :: rest →
      dget (_merge_raw_dicts ds) k = some (.pList ((mergedValues ds k).flatMap toListVal))) ∧
    (∀ s rest, mergedValues ds k = .pStr s :: rest →
      dget (_merge_raw_dicts ds) k =
        some (((mergedValues ds k).find? pyTruthy).getD (.pStr s))) ∧
    (∀ es rest, mergedValues ds k = .pDict es :: rest → k = "coverage" →
      dget (_merge_raw_dicts ds) k =
        some (.pDict
          [("applicable",
            sumNum (((mergedValues ds k).filterMap toDict?).map
              (fun d => covField d "applicable"))),
           ("compliant",
            sumNum (((mergedValues ds k).filterMap toDict?).map
              (fun d => covField d "compliant"))),
           ("ratio", .pFloat (roundTo 4
             (pyValNum (sumNum (((mergedValues ds k).filterMap toDict?).map
                (fun d => covField d "compliant"))) /
              max (pyValNum (sumNum (((mergedValues ds k).filterMap toDict?).map
                (fun d => covField d "applicable")))) 1)))])) ∧
    (∀ es rest, mergedValues ds k = .pDict es :: rest → k ≠ "coverage" →
      dget (_merge_raw_dicts ds) k =
        some (.pDict (_merge_raw_dicts ((mergedValues ds k).filterMap toDict?)))) ∧
    dget (_merge_raw_dicts
        [[("coverage", .pDict [("applicable", .pInt 10), ("compliant", .pInt 5),
            ("ratio", .pFloat (1 / 2))])],
         [("coverage", .pDict [("applicable", .pInt 20), ("compliant", .pInt 15),
            ("ratio", .pFloat (3 / 4))])]]) "coverage" =
      some (.pDict [("applicable", .pInt 30), ("compliant", .pInt 20),
        ("ratio", .pFloat (6667 / 10000))]) := by
  have hbase := dget_merge_raw ds h2 k hk1 hk2
  have hval : ∀ (first : PyVal) (rest : List PyVal),
      mergedValues ds k = first :: rest →
      dget (_merge_raw_dicts ds) k =
        some (mergeKeyVal (rawDepth ds) k (first :: rest)) := by
    intro first rest hv
    rw [hbase]
    unfold mergedValues at hv
    simp [mergeVal?, hv]
  refine ⟨?_, ?_, ?_, ?_, ?_, ?_, ?_, ?_⟩
  · intro i rest hv
    rw [hval _ _ hv, hv]
    simp [mergeKeyVal.eq_def, toDict?]
  · intro q rest hv
    rw [hval _ _ hv, hv]
    simp [mergeKeyVal.eq_def, toDict?]
  · intro b rest hv
    rw [hval _ _ hv, hv]
    simp [mergeKeyVal.eq_def, toDict?]
  · intro xs rest hv
    rw [hval _ _ hv, hv]
    simp [mergeKeyVal.eq_def, toDict?]
  · intro s rest hv
    rw [hval _ _ hv, hv]
    simp [mergeKeyVal.eq_def, toDict?]
  · intro es rest hv hcov
    subst hcov
    rw [hval _ _ hv]
    have hvv : mergedValues ds "coverage" = PyVal.pDict es :: rest := hv
    rw [hvv]
    simp [mergeKeyVal.eq_def, toDict?]
  · intro es rest hv hcov
    rw [hval _ _ hv]
    rw [show (mergedValues ds k).filterMap toDict? =
      ((PyVal.pDict es :: rest).filterMap toDict?) from by rw [hv]]
    rw [← hv]
    simp only [mergeKeyVal.eq_def]
    rw [hv]
    simp only [toDict?, Option.isSome_some]
    rw [if_neg (by simp [hcov])]
    rw [← hv, mergeFuel_extracted_eq]
  · simp [_merge_raw_dicts, pvDepth, pvdDepth, mergeFuel, mergeKeyVal, mergeVal?, keyUnion,
      dget, dset, percentRecompute, pcStep, sumNum, covField, pyValNum, numVal?, intLike,
      isFloatVal, toDict?, List.flatMap, roundTo, round_eq]
    norm_num

/-- C6, counterexample to the claim as stated: `compliance_percent` is a float
field, but merging two dicts carrying it (40.0 and 60.0, with summed
`total_resources` 20 and `noncompliant_resources` 10) yields the recomputed
50.0, not the sum 100.0. -/
theorem c6_percent_field_counterexample :
    dget (_merge_raw_dicts
        [[("compliance_percent", .pFloat 40), ("total_resources", .pInt 10),
          ("noncompliant_resources", .pInt 6)],
         [("compliance_percent", .pFloat 60), ("total_resources", .pInt 10),
          ("noncompliant_resources", .pInt 4)]]) "compliance_percent" =
      some (.pFloat 50) ∧
    ((mergedValues
        [[("compliance_percent", .pFloat 40), ("total_resources", .pInt 10),
          ("noncompliant_resources", .pInt 6)],
         [("compliance_percent", .pFloat 60), ("total_resources", .pInt 10),
          ("noncompliant_resources", .pInt 4)]] "compliance_percent").filterMap numVal?).sum
      = 100 ∧ (50 : ℚ) ≠ 100 := by
  refine ⟨?_, ?_, by norm_num⟩
  · simp [_merge_raw_dicts, pvDepth, pvdDepth, mergeFuel, mergeKeyVal, mergeVal?, keyUnion,
      dget, dset, percentRecompute, pcStep, sumNum, covField, pyValNum, numVal?, intLike,
      isFloatVal, toDict?, List.flatMap, roundTo, round_eq]
    norm_num
  · simp [mergedValues, dget, List.find?, numVal?]
    norm_num

/-- Witness for `c6_generic_merge_fieldwise` at a two-dict input. -/
theorem c6_generic_merge_fieldwise_witness :
    2 ≤ ([[("n", PyVal.pInt 1)], [("n", PyVal.pInt 2)]] : List PyDict).length ∧
    ("n" : String) ≠ "compliance_percent" ∧ ("n" : String) ≠ "diag_coverage_percent" ∧
    (∀ i rest, mergedValues [[("n", PyVal.pInt 1)], [("n", PyVal.pInt 2)]] "n" =
        .pInt i :: rest →
      dget (_merge_raw_dicts [[("n", PyVal.pInt 1)], [("n", PyVal.pInt 2)]]) "n" =
        some (sumNum (mergedValues [[("n", PyVal.pInt 1)], [("n", PyVal.pInt 2)]] "n"))) :=
  ⟨by decide, by decide, by decide,
    (c6_generic_merge_fieldwise [[("n", PyVal.pInt 1)], [("n", PyVal.pInt 2)]]
      (by decide) "n" (by decide) (by decide)).1⟩

/-! ## `signals/types.py` — `SignalStatus` and `SignalResult` -/

inductive SignalStatus where
  | OK
  | NOT_AVAILABLE
  | ERROR
  | SIGNAL_ERROR
  deriving Repr, DecidableEq

/-- The enum's string value. -/
def SignalStatus.value : SignalStatus → String
  | .OK => "OK"
  | .NOT_AVAILABLE => "NotAvailable"
  | .ERROR => "Error"
  | .SIGNAL_ERROR => "SignalError"

structure SignalResult where
  signal_name : String
  status : SignalStatus
  items : List PyDict := []
  raw : Option PyDict := none
  error_msg : String := ""
  duration_ms : ℤ := 0
  deriving Repr

/-! ## `_merge_signal_results` (`signals/registry.py` lines 152–223) -/

/-- Python string-join of the truthy (non-empty) error messages. -/
def joinMsgs (rs : List SignalResult) : String :=
  String.intercalate "; "
    (rs.filterMap (fun r => if r.error_msg = "" then none else some r.error_msg))

/-- The `_per_subscription` breakdown entry built for every element (OK or
not) of the merge input. -/
def perSubEntry (r : SignalResult) : PyVal :=
  let raw0 := r.raw.getD []
  let sub_cov := (dget raw0 "coverage").getD (.pDict [])
  .pDict
    [("subscription_id", (dget raw0 "_subscription_id").getD (.pStr "unknown")),
     ("status", .pStr r.status.value),
     ("item_count", .pInt (r.items.length : ℤ)),
     ("coverage", if (toDict? sub_cov).isSome then sub_cov else .pDict [])]

def _merge_signal_results (results : List SignalResult) : SignalResult :=
  match results with
  | [] =>
    { signal_name := ""
      status := .NOT_AVAILABLE
      error_msg := "No subscription results" }
  | [r] => r
  | r0 :: r1 :: rest =>
    let results := r0 :: r1 :: rest
    let ok_results := results.filter (fun r => r.status == .OK)
    let err_results := results.filter (fun r => r.status == .ERROR)
    let total_ms := (results.map (·.duration_ms)).sum
    match ok_results with
    | [] =>
      { signal_name := r0.signal_name
        status := .ERROR
        error_msg := joinMsgs err_results
        duration_ms := total_ms }
    | ok0 :: _ =>
      let merged_items := ok_results.flatMap (·.items)
      let raw_list := ok_results.filterMap (fun r =>
        match r.raw with
        | some d => if d.isEmpty then none else some d
        | none => none)
      let m0 := _merge_raw_dicts raw_list
      let m1 := dset m0 "_subscriptions_assessed" (.pInt (ok_results.length : ℤ))
      let m2 := if err_results.isEmpty then m1
        else dset m1 "_subscription_errors" (.pInt (err_results.length : ℤ))
      let m3 := dset m2 "_per_subscription" (.pList (results.map perSubEntry))
      let error_msg := if err_results.isEmpty then ""
        else toString err_results.length ++ " sub(s) failed: " ++
          joinMsgs (err_results.take 3)
      { signal_name := ok0.signal_name
        status := .OK
        items := merged_items
        raw := some m3
        error_msg := error_msg
        duration_ms := total_ms }

/-! ## `_merge_defender_pricings` (`signals/registry.py` lines 228–279) -/

/-- Python `str.lower()` (character-wise, via the string's character list). -/
def pyLower (s : String) : String := String.mk (s.data.map Char.toLower)

/-- Python `str.capitalize()`: first character upper-cased, remainder
lower-cased. -/
def pyCapitalize (s : String) : String :=
  match s.data with
  | [] => ""
  | c :: cs => String.mk (c.toUpper :: cs.map Char.toLower)

/-- Python `x or y`. -/
def pyOr (a b : PyVal) : PyVal := if pyTruthy a then a else b

/-- The string content of a value (normalisation on the tier/name fields;
a truthy non-string value here would raise `AttributeError` in the source
and is read as the empty string). -/
def asStr : PyVal → String
  | .pStr s => s
  | _ => ""

/-- `plan_tiers.setdefault(name, []).append(tier)`. -/
def addTier (acc : List (String × List String)) (name tier : String) :
    List (String × List String) :=
  match acc with
  | [] => [(name, [tier])]
  | (n, ts) :: t =>
    if n = name then (n, ts ++ [tier]) :: t else (n, ts) :: addTier t name tier

/-- The per-plan tier lists collected across all OK subscriptions, in
first-seen plan order. -/
def planTiers (ok : List SignalResult) : List (String × List String) :=
  ok.foldl (fun acc r =>
    r.items.foldl (fun acc item =>
      let name := pyLower (asStr (pyOr ((dget item "name").getD .pNone)
        (pyOr ((dget item "plan").getD .pNone) (.pStr ""))))
      let tier := pyCapitalize (asStr (pyOr ((dget item "tier").getD .pNone)
        (pyOr ((dget item "pricingTier").getD .pNone) (.pStr "Free"))))
      if name = "" then acc else addTier acc name tier) acc) []

/-- The merged item built for one plan. -/
def defenderItem (p : String × List String) : PyDict :=
  let worst := if p.2.all (· == "Standard") then "Standard" else "Free"
  [("name", PyVal.pStr p.1), ("tier", .pStr worst), ("pricingTier", .pStr worst),
   ("subscriptions_standard", .pInt (p.2.countP (· == "Standard") : ℤ)),
   ("subscriptions_total", .pInt (p.2.length : ℤ))]

def _merge_defender_pricings (results : List SignalResult) : SignalResult :=
  let ok_results := results.filter (fun r => r.status == .OK)
  if ok_results.isEmpty then _merge_signal_results results
  else
    let pt := planTiers ok_results
    let plans_total := pt.length
    let plans_enabled := pt.countP (fun p => p.2.all (· == "Standard"))
    { signal_name := "defender:pricings"
      status := .OK
      items := pt.map defenderItem
      raw := some
        [("plans_total", .pInt (plans_total : ℤ)),
         ("plans_enabled", .pInt (plans_enabled : ℤ)),
         ("coverage", .pDict
           [("applicable", .pInt (plans_total : ℤ)),
            ("compliant", .pInt (plans_enabled : ℤ)),
            ("ratio", .pFloat (roundTo 4 ((plans_enabled : ℚ) / max (plans_total : ℚ) 1)))]),
         ("_subscriptions_assessed", .pInt (ok_results.length : ℤ))]
      error_msg := ""
      duration_ms := (results.map (·.duration_ms)).sum }

/-! ## Claim C7 -/

theorem dget_dset_self (d : PyDict) (k : String) (v : PyVal) :
    dget (dset d k v) k = some v := by
  induction d with
  | nil => simp [dset, dget_cons_self]
  | cons e t ih =>
    obtain ⟨ek, ev⟩ := e
    by_cases hk : ek = k
    · subst hk
      have hd : dset ((ek, ev) :: t) ek v = (ek, v) :: t := by simp [dset]
      rw [hd, dget_cons_self]
    · have hd : dset ((ek, ev) :: t) k v = (ek, ev) :: dset t k v := by simp [dset, hk]
      rw [hd, dget_cons_ne _ _ hk, ih]

/-- C7 (amended): merging two or more per-subscription results — if no element
has status OK the merge is an Error result whose message joins the messages of
the Error-status elements only (NotAvailable/SignalError messages are
dropped); if at least one element is OK the merge is an OK result whose items
come from the OK subset, whose raw always embeds `_subscriptions_assessed` and
a `_per_subscription` breakdown built from ALL elements (not only the OK
subset), and whose raw embeds `_subscription_errors` — the count of
Error-status elements — exactly when that count is non-zero. -/
theorem c7_merge_partition (results : List SignalResult) (h2 : 2 ≤ results.length) :
    ((results.filter (fun r => r.status == .OK)).isEmpty = true →
      (_merge_signal_results results).status = .ERROR ∧
      (_merge_signal_results results).error_msg =
        joinMsgs (results.filter (fun r => r.status == .ERROR)) ∧
      (_merge_signal_results results).duration_ms = (results.map (·.duration_ms)).sum) ∧
    ((results.filter (fun r => r.status == .OK)).isEmpty = false →
      (_merge_signal_results results).status = .OK ∧
      (_merge_signal_results results).items =
        (results.filter (fun r => r.status == .OK)).flatMap (·.items) ∧
      (∃ m : PyDict, (_merge_signal_results results).raw = some m ∧
        dget m "_per_subscription" = some (.pList (results.map perSubEntry)) ∧
        dget m "_subscriptions_assessed" =
          some (.pInt ((results.filter (fun r => r.status == .OK)).length : ℤ)) ∧
        ((results.filter (fun r => r.status == .ERROR)).isEmpty = false →
          dget m "_subscription_errors" =
            some (.pInt ((results.filter (fun r => r.status == .ERROR)).length : ℤ))))) := by
  match results, h2 with
  | r0 :: r1 :: rest, _ =>
    constructor
    · intro hok
      have hfil : (r0 :: r1 :: rest).filter (fun r => r.status == .OK) = [] :=
        List.isEmpty_iff.mp hok
      simp only [_merge_signal_results, hfil]
      exact ⟨trivial, trivial, trivial⟩
    · intro hok
      cases hfil : (r0 :: r1 :: rest).filter (fun r => r.status == .OK) with
      | nil => rw [hfil] at hok; simp at hok
      | cons ok0 oks =>
        simp only [_merge_signal_results, hfil]
        refine ⟨trivial, trivial, ?_⟩
        refine ⟨_, rfl, ?_, ?_, ?_⟩
        · rw [dget_dset_self]
        · rw [dget_dset_ne _ _ (by decide)]
          cases herr : ((r0 :: r1 :: rest).filter (fun r => r.status == .ERROR)).isEmpty
          · simp only [Bool.false_eq_true, if_false]
            rw [dget_dset_ne _ _ (by decide), dget_dset_self]
          · simp only [if_true]
            rw [dget_dset_self]
        · intro herr
          rw [dget_dset_ne _ _ (by decide)]
          rw [herr]
          simp only [Bool.false_eq_true, if_false]
          rw [dget_dset_self]

theorem statusBeq (a b : SignalStatus) : (a == b) = decide (a = b) := rfl

/-- Inputs for the C7 counterexample: per-subscription results that are
neither OK nor Error (`NotAvailable` carrying a message), and an OK result. -/
def naRes (msg : String) : SignalResult :=
  { signal_name := "s", status := .NOT_AVAILABLE, error_msg := msg }

def okRes : SignalResult :=
  { signal_name := "s", status := .OK, items := [[("a", .pInt 1)]],
    raw := some [("_subscription_id", .pStr "sub1")] }

/-- C7, counterexample to the claim as stated.  First input — two elements,
none OK: the merge has status Error but an EMPTY message, not the elements'
messages "na1; na2" concatenated.  Second input — one OK and one failed
(NotAvailable) element: the merged raw embeds no error count at all
(`_subscription_errors` is absent) even though a subscription failed, and the
`_per_subscription` array inside raw is built from ALL elements including the
non-OK one, so raw is not built from the OK subset only. -/
theorem c7_merge_counterexample :
    ((_merge_signal_results [naRes "na1", naRes "na2"]).status = .ERROR ∧
     (_merge_signal_results [naRes "na1", naRes "na2"]).error_msg = "" ∧
     "" ≠ "na1; na2") ∧
    ((_merge_signal_results [okRes, naRes "x"]).status = .OK ∧
     (∃ m : PyDict, (_merge_signal_results [okRes, naRes "x"]).raw = some m ∧
       dget m "_subscription_errors" = none ∧
       dget m "_per_subscription" =
         some (.pList [perSubEntry okRes, perSubEntry (naRes "x")]))) := by
  refine ⟨⟨?_, ?_, by decide⟩, ?_, ?_⟩
  · simp +decide [_merge_signal_results, naRes, List.filter, statusBeq]
  · simp +decide [_merge_signal_results, naRes, List.filter, joinMsgs, statusBeq]
  · simp +decide [_merge_signal_results, naRes, okRes, List.filter, statusBeq]
  · refine ⟨[("_subscription_id", .pStr "sub1"), ("_subscriptions_assessed", .pInt 1),
      ("_per_subscription", .pList [perSubEntry okRes, perSubEntry (naRes "x")])],
      ?_, ?_, ?_⟩
    · simp +decide [_merge_signal_results, naRes, okRes, List.filter, _merge_raw_dicts,
        mergeFuel, pvDepth, pvdDepth, dset, statusBeq]
    · simp +decide [dget, List.find?]
    · simp +decide [dget, List.find?]

/-- Witness for `c7_merge_partition` at a two-element input. -/
theorem c7_merge_partition_witness :
    2 ≤ ([naRes "na1", naRes "na2"] : List SignalResult).length ∧
    (([naRes "na1", naRes "na2"].filter (fun r => r.status == .OK)).isEmpty = true →
      (_merge_signal_results [naRes "na1", naRes "na2"]).status = .ERROR ∧
      (_merge_signal_results [naRes "na1", naRes "na2"]).error_msg =
        joinMsgs ([naRes "na1", naRes "na2"].filter (fun r => r.status == .ERROR)) ∧
      (_merge_signal_results [naRes "na1", naRes "na2"]).duration_ms =
        ([naRes "na1", naRes "na2"].map (·.duration_ms)).sum) :=
  ⟨by decide, (c7_merge_partition [naRes "na1", naRes "na2"] (by decide)).1⟩

/-! ## Claim C8 -/

/-- One OK per-subscription Defender-pricing result reporting a single plan
`"P"` at the given tier. -/
def defRes (t : String) : SignalResult :=
  { signal_name := "defender:pricings", status := .OK,
    items := [[("name", .pStr "P"), ("tier", .pStr t)]] }

/-- C8: in the Defender-pricing merge a plan is credited tier `Standard` iff
its collected tier is `Standard` in every subscription that reports it, and is
otherwise downgraded to `Free`; in particular, tiers {Free, Standard,
Standard} for one plan merge to `Free` (with 2 of 3 subscriptions on
Standard). -/
theorem c8_tiered_plan_merge (results : List SignalResult)
    (hok : (results.filter (fun r => r.status == .OK)).isEmpty = false) :
    (∀ p ∈ planTiers (results.filter (fun r => r.status == .OK)),
      defenderItem p ∈ (_merge_defender_pricings results).items ∧
      (dget (defenderItem p) "tier" = some (.pStr "Standard") ↔
        p.2.all (· == "Standard") = true) ∧
      (p.2.all (· == "Standard") = false →
        dget (defenderItem p) "tier" = some (.pStr "Free"))) ∧
    (_merge_defender_pricings [defRes "Free", defRes "Standard", defRes "Standard"]).items =
      [[("name", .pStr "p"), ("tier", .pStr "Free"), ("pricingTier", .pStr "Free"),
        ("subscriptions_standard", .pInt 2), ("subscriptions_total", .pInt 3)]] := by
  constructor
  · intro p hp
    refine ⟨?_, ?_, ?_⟩
    · simp only [_merge_defender_pricings, hok, Bool.false_eq_true, if_false]
      exact List.mem_map_of_mem _ hp
    · cases hall : p.2.all (· == "Standard") <;>
        simp [defenderItem, hall, dget, List.find?]
    · intro hall
      simp [defenderItem, hall, dget, List.find?]
  · simp +decide [_merge_defender_pricings, defRes, planTiers, defenderItem, dget,
      List.find?, pyOr, pyTruthy, asStr, pyLower, pyCapitalize, addTier, statusBeq,
      List.filter]

/-- Witness for `c8_tiered_plan_merge` at the three-subscription example. -/
theorem c8_tiered_plan_merge_witness :
    (([defRes "Free", defRes "Standard", defRes "Standard"].filter
        (fun r => r.status == .OK)).isEmpty = false) ∧
    (_merge_defender_pricings [defRes "Free", defRes "Standard", defRes "Standard"]).items =
      [[("name", .pStr "p"), ("tier", .pStr "Free"), ("pricingTier", .pStr "Free"),
        ("subscriptions_standard", .pInt 2), ("subscriptions_total", .pInt 3)]] :=
  ⟨by decide,
    (c8_tiered_plan_merge [defRes "Free", defRes "Standard", defRes "Standard"]
      (by decide)).2⟩

/-! ## `engine/risk_scoring.py` — deterministic platform risk scoring

The foundational set is loaded from a static graph file
(`graph/controls.json`, data outside the engine); it enters the embedding as
an explicit parameter `foundational` (the set of short control ids that other
controls depend on). -/

def _SEVERITY_WEIGHT : List (String × ℤ) :=
  [("High", 3), ("Medium", 2), ("Low", 1), ("Info", 0)]

def _SCOPE_MULTIPLIER : List (String × ℤ) :=
  [("Tenant", 3), ("ManagementGroup", 2), ("Subscription", 1)]

def _TIER_THRESHOLDS : List (String × ℤ) :=
  [("Critical", 12), ("High", 6), ("Medium", 3)]

def tierFor : List (String × ℤ) → ℤ → String
  | [], _ => "Hygiene"
  | (t, th) :: rest, score => if th ≤ score then t else tierFor rest score

def _tier_for_score (score : ℤ) : String := tierFor _TIER_THRESHOLDS score

/-- `control_id[:8] if len(control_id) > 8 else control_id` (character-wise). -/
def _short_id (cid : String) : String :=
  if cid.data.length > 8 then String.mk (cid.data.take 8) else cid

/-- A control result as read by `score_control` via `result.get(...)`:
`none` models an absent key. -/
structure RiskInput where
  control_id : Option String := none
  severity : Option String := none
  status : Option String := none
  scope_level : Option String := none
  text : Option String := none
  section_ : Option String := none
  notes : Option String := none
  evidence_count : Option ℤ := none
  confidence : Option String := none
  coverage_display : Option String := none
  deriving Repr, DecidableEq

structure ScoredControl where
  control_id : String
  short_id : String
  text : String
  section_ : String
  severity : String
  status : String
  scope_level : String
  is_foundational : Bool
  risk_score : ℤ
  risk_tier : String
  notes : String
  evidence_count : ℤ
  confidence : String
  coverage_display : String
  deriving Repr, DecidableEq

def score_control (foundational : List String) (result : RiskInput) : ScoredControl :=
  let cid := result.control_id.getD ""
  let sid := _short_id cid
  let severity := result.severity.getD "Medium"
  let status := result.status.getD "Unknown"
  let scope := match result.scope_level with
    | some s => if s = "" then "Tenant" else s
    | none => "Tenant"
  let is_foundational := foundational.contains sid
  let sev_w := (_SEVERITY_WEIGHT.lookup severity).getD 1
  let scope_w := (_SCOPE_MULTIPLIER.lookup scope).getD 1
  let found_w : ℤ := if is_foundational then 2 else 1
  let risk_score := sev_w * scope_w * found_w
  { control_id := cid
    short_id := sid
    text := result.text.getD ""
    section_ := result.section_.getD ""
    severity := severity
    status := status
    scope_level := scope
    is_foundational := is_foundational
    risk_score := risk_score
    risk_tier := _tier_for_score risk_score
    notes := result.notes.getD ""
    evidence_count := result.evidence_count.getD 0
    confidence := result.confidence.getD ""
    coverage_display := result.coverage_display.getD "" }

/-- `_RISK_STATUSES` from `engine/risk_scoring.py`. -/
def _RISK_STATUSES : List String := ["Fail", "Partial", "SignalError", "Error"]

def riskStatusIn (r : RiskInput) : Bool :=
  match r.status with
  | some s => _RISK_STATUSES.contains s
  | none => false

/-- Sort key of the tier buckets: `(-risk_score, section)`, ascending. -/
def riskLE (a b : ScoredControl) : Bool :=
  (b.risk_score < a.risk_score) ||
    (a.risk_score == b.risk_score && a.section_ ≤ b.section_)

structure RiskTiers where
  Critical : List ScoredControl
  High : List ScoredControl
  Medium : List ScoredControl
  Hygiene : List ScoredControl
  deriving Repr, DecidableEq

/-- `score_all`: bucket the scored Fail/Partial/SignalError/Error results by
tier and sort each bucket by (−risk_score, section) (stable, like Python). -/
def score_all (foundational : List String) (results : List RiskInput) : RiskTiers :=
  let scored := (results.filter riskStatusIn).map (score_control foundational)
  let bucket := fun (t : String) =>
    List.insertionSort (fun a b => riskLE a b = true)
      (scored.filter (fun s => s.risk_tier == t))
  { Critical := bucket "Critical"
    High := bucket "High"
    Medium := bucket "Medium"
    Hygiene := bucket "Hygiene" }

/-! ## Claim C9 -/

theorem tier_characterization (s : ℤ) :
    (_tier_for_score s = "Critical" ↔ 12 ≤ s) ∧
    (_tier_for_score s = "High" ↔ 6 ≤ s ∧ s < 12) ∧
    (_tier_for_score s = "Medium" ↔ 3 ≤ s ∧ s < 6) ∧
    (_tier_for_score s = "Hygiene" ↔ s < 3) := by
  simp only [_tier_for_score, _TIER_THRESHOLDS, tierFor]
  refine ⟨?_, ?_, ?_, ?_⟩ <;> split_ifs <;> simp +decide <;> omega

theorem tier_mem (s : ℤ) :
    _tier_for_score s ∈ (["Critical", "High", "Medium", "Hygiene"] : List String) := by
  simp only [_tier_for_score, _TIER_THRESHOLDS, tierFor]
  split_ifs <;> simp

theorem riskLE_total (a b : ScoredControl) : riskLE a b = true ∨ riskLE b a = true := by
  simp only [riskLE, Bool.or_eq_true, Bool.and_eq_true, beq_iff_eq, decide_eq_true_eq]
  rcases lt_trichotomy a.risk_score b.risk_score with h | h | h
  · exact Or.inr (Or.inl h)
  · rcases le_total a.section_ b.section_ with hs | hs
    · exact Or.inl (Or.inr ⟨h, hs⟩)
    · exact Or.inr (Or.inr ⟨h.symm, hs⟩)
  · exact Or.inl (Or.inl h)

theorem riskLE_trans (a b c : ScoredControl)
    (h1 : riskLE a b = true) (h2 : riskLE b c = true) : riskLE a c = true := by
  simp only [riskLE, Bool.or_eq_true, Bool.and_eq_true, beq_iff_eq,
    decide_eq_true_eq] at h1 h2 ⊢
  rcases h1 with h1 | ⟨h1e, h1s⟩
  · rcases h2 with h2 | ⟨h2e, h2s⟩
    · exact Or.inl (lt_trans h2 h1)
    · exact Or.inl (h2e ▸ h1)
  · rcases h2 with h2 | ⟨h2e, h2s⟩
    · exact Or.inl (h1e ▸ h2)
    · exact Or.inr ⟨h1e.trans h2e, le_trans h1s h2s⟩

theorem bucket_mem {f : List String} {results : List RiskInput} {t : String}
    {s : ScoredControl}
    (h : s ∈ List.insertionSort (fun a b => riskLE a b = true)
      (((results.filter riskStatusIn).map (score_control f)).filter
        (fun s => s.risk_tier == t))) :
    ∃ r ∈ results, riskStatusIn r = true ∧ s = score_control f r := by
  have h1 := (List.perm_insertionSort (fun a b => riskLE a b = true) _).mem_iff.mp h
  have h2 := List.mem_of_mem_filter h1
  obtain ⟨r, hr, hsc⟩ := List.mem_map.mp h2
  exact ⟨r, List.mem_of_mem_filter hr, List.of_mem_filter hr, hsc.symm⟩

theorem scored_partition (scored : List ScoredControl)
    (hmem : ∀ s ∈ scored,
      s.risk_tier ∈ (["Critical", "High", "Medium", "Hygiene"] : List String)) :
    (scored.filter (fun s => s.risk_tier == "Critical")).length +
      (scored.filter (fun s => s.risk_tier == "High")).length +
      (scored.filter (fun s => s.risk_tier == "Medium")).length +
      (scored.filter (fun s => s.risk_tier == "Hygiene")).length = scored.length := by
  simp only [← List.countP_eq_length_filter]
  induction scored with
  | nil => simp
  | cons s t ih =>
    have hs := hmem s (List.mem_cons_self _ _)
    have ht : ∀ x ∈ t, x.risk_tier ∈ (["Critical", "High", "Medium", "Hygiene"] : List String) :=
      fun x hx => hmem x (List.mem_cons_of_mem _ hx)
    have hsum := ih ht
    simp only [List.mem_cons, List.not_mem_nil, or_false] at hs
    rcases hs with h | h | h | h <;>
      · simp +decide [h, List.countP_cons, List.length_cons]
        omega

/-- C9: `score_control` multiplies the severity weight (High=3, Medium=2,
Low=1, Info=0), the blast-radius weight (Tenant=3, ManagementGroup=2,
Subscription=1) and the foundational weight (2 iff the short control id is in
the foundational set, else 1); the tier is Critical iff score≥12, High iff
6≤score<12, Medium iff 3≤score<6, else Hygiene.  `score_all` scores exactly
the results whose status is in {Fail, Partial, SignalError, Error} and sorts
every tier bucket by (−risk_score, section).  Severity High at Tenant scope
for a foundational control scores 18 (Critical); severity Low at Subscription
scope, not foundational, scores 1 (Hygiene). -/
theorem c9_risk_scoring :
    (∀ (s : ℤ), (_tier_for_score s = "Critical" ↔ 12 ≤ s) ∧
      (_tier_for_score s = "High" ↔ 6 ≤ s ∧ s < 12) ∧
      (_tier_for_score s = "Medium" ↔ 3 ≤ s ∧ s < 6) ∧
      (_tier_for_score s = "Hygiene" ↔ s < 3)) ∧
    (∀ (f : List String) (r : RiskInput),
      (score_control f r).risk_score =
        ((_SEVERITY_WEIGHT.lookup (r.severity.getD "Medium")).getD 1) *
          ((_SCOPE_MULTIPLIER.lookup ((score_control f r).scope_level)).getD 1) *
          (if f.contains (_short_id (r.control_id.getD "")) then 2 else 1) ∧
      (score_control f r).risk_tier = _tier_for_score ((score_control f r).risk_score)) ∧
    (∀ (f : List String) (results : List RiskInput) (s : ScoredControl),
      (s ∈ (score_all f results).Critical ∨ s ∈ (score_all f results).High ∨
        s ∈ (score_all f results).Medium ∨ s ∈ (score_all f results).Hygiene) →
      ∃ r ∈ results, riskStatusIn r = true ∧ s = score_control f r) ∧
    (∀ (f : List String) (results : List RiskInput),
      (score_all f results).Critical.length + (score_all f results).High.length +
        (score_all f results).Medium.length + (score_all f results).Hygiene.length =
        (results.filter riskStatusIn).length) ∧
    (∀ (f : List String) (results : List RiskInput),
      (score_all f results).Critical.Sorted (fun a b => riskLE a b = true) ∧
      (score_all f results).High.Sorted (fun a b => riskLE a b = true) ∧
      (score_all f results).Medium.Sorted (fun a b => riskLE a b = true) ∧
      (score_all f results).Hygiene.Sorted (fun a b => riskLE a b = true)) ∧
    ((score_control ["cHigh"]
        { control_id := some "cHigh", severity := some "High", status := some "Fail",
          scope_level := some "Tenant" }).risk_score = 18 ∧
      (score_control ["cHigh"]
        { control_id := some "cHigh", severity := some "High", status := some "Fail",
          scope_level := some "Tenant" }).risk_tier = "Critical") ∧
    ((score_control []
        { control_id := some "cLow", severity := some "Low", status := some "Fail",
          scope_level := some "Subscription" }).risk_score = 1 ∧
      (score_control []
        { control_id := some "cLow", severity := some "Low", status := some "Fail",
          scope_level := some "Subscription" }).risk_tier = "Hygiene") := by
  refine ⟨tier_characterization, ?_, ?_, ?_, ?_, by decide, by decide⟩
  · intro f r
    exact ⟨rfl, rfl⟩
  · intro f results s h
    rcases h with h | h | h | h <;> exact bucket_mem h
  · intro f results
    simp only [score_all]
    rw [(List.perm_insertionSort _ _).length_eq, (List.perm_insertionSort _ _).length_eq,
      (List.perm_insertionSort _ _).length_eq, (List.perm_insertionSort _ _).length_eq]
    rw [scored_partition]
    · simp
    · intro s hs
      obtain ⟨r, _, hsc⟩ := List.mem_map.mp hs
      rw [← hsc]
      exact tier_mem _
  · intro f results
    haveI : IsTotal ScoredControl (fun a b => riskLE a b = true) := ⟨riskLE_total⟩
    haveI : IsTrans ScoredControl (fun a b => riskLE a b = true) := ⟨riskLE_trans⟩
    exact ⟨List.sorted_insertionSort _ _, List.sorted_insertionSort _ _,
      List.sorted_insertionSort _ _, List.sorted_insertionSort _ _⟩

/-- Input used by the C9 witness. -/
def rHighInput : RiskInput :=
  { control_id := some "cHigh", severity := some "High", status := some "Fail",
    scope_level := some "Tenant" }

/-- Witness for `c9_risk_scoring`: the bucket-membership implication
discharged at a concrete one-control run. -/
theorem c9_risk_scoring_witness :
    (score_control ["cHigh"] rHighInput ∈ (score_all ["cHigh"] [rHighInput]).Critical ∨
      score_control ["cHigh"] rHighInput ∈ (score_all ["cHigh"] [rHighInput]).High ∨
      score_control ["cHigh"] rHighInput ∈ (score_all ["cHigh"] [rHighInput]).Medium ∨
      score_control ["cHigh"] rHighInput ∈ (score_all ["cHigh"] [rHighInput]).Hygiene) ∧
    (∃ r ∈ [rHighInput], riskStatusIn r = true ∧
      score_control ["cHigh"] rHighInput = score_control ["cHigh"] r) :=
  ⟨Or.inl (by decide),
    c9_risk_scoring.2.2.1 ["cHigh"] [rHighInput] _ (Or.inl (by decide))⟩

/-! ## `evaluators/registry.py` — `evaluate_control`

The signal bus enters the embedding as the pure fetch `bus : String →
SignalResult` that `evaluate_control` invokes per required signal; an
evaluator's `evaluate` may raise, modelled as `Except String ControlResult`
(`.error` is a raised exception).  Wall-clock telemetry (`duration_ms`,
`cache_hit`) is bookkeeping over real time and bus events and is not part of
the embedded response. -/

structure EvalScope where
  tenant_id : Option String := none
  management_group_id : Option String := none
  subscription_ids : List String := []
  resource_group : Option String := none
  deriving Repr, DecidableEq

structure EvalContext where
  scope : EvalScope
  run_id : String := ""
  options : PyDict := []
  deriving Repr

/-- `ControlResult` from `signals/types.py` (`coverage` carried as its
`to_dict()` image). -/
structure ControlResult where
  status : String
  severity : String := "Medium"
  confidence : String := "High"
  confidence_score : ℚ := 1
  reason : String := ""
  evidence : List PyDict := []
  signals_used : List String := []
  next_checks : List PyDict := []
  coverage : Option PyDict := none
  deriving Repr

/-- An entry of the `EVALUATORS` registry: the `ControlEvaluator` protocol.
`severity` models `evaluator.__dict__.get("severity", "Medium")`. -/
structure Evaluator where
  control_id : String
  required_signals : List String
  severity : String := "Medium"
  evaluate : EvalContext → List (String × SignalResult) → Except String ControlResult

/-- The response dict of `evaluate_control`.  `confidence_score = none` and
`coverage = none` model the keys being absent (the Unknown branch emits
neither); `coverage = some none` is the key present with value `None`. -/
structure EvalControlResponse where
  control_id : String
  status : String
  severity : String
  confidence : String
  confidence_score : Option ℚ := none
  evidence : List PyDict := []
  reason : String := ""
  signals_used : List String := []
  next_checks : List PyDict := []
  coverage : Option (Option PyDict) := none
  deriving Repr

/-- `evaluate_control` (`evaluators/registry.py` lines 35–127).  A raised
exception — from the evaluator — escapes as `.error`. -/
def evaluate_control (evaluators : List (String × Evaluator))
    (bus : String → SignalResult) (control_id : String) (scope : EvalScope)
    (run_id : String := "") (options : PyDict := []) :
    Except String EvalControlResponse :=
  match evaluators.lookup control_id with
  | none =>
    .ok { control_id := control_id
          status := "Unknown"
          severity := "Medium"
          confidence := "Low"
          evidence := []
          reason := "No evaluator registered for control " ++ control_id
          signals_used := []
          next_checks := [] }
  | some evaluator =>
    let signal_bundle := evaluator.required_signals.map (fun n => (n, bus n))
    let all_errored := !signal_bundle.isEmpty &&
      signal_bundle.all (fun s =>
        s.2.status == .ERROR || s.2.status == .SIGNAL_ERROR)
    if all_errored then
      let error_msgs := String.intercalate "; "
        (signal_bundle.filterMap (fun s =>
          if s.2.error_msg = "" then none
          else some (s.2.signal_name ++ ": " ++ s.2.error_msg)))
      .ok { control_id := control_id
            status := "SignalError"
            severity := evaluator.severity
            confidence := "Low"
            confidence_score := some 0
            evidence := []
            reason := "All required signals failed: " ++
              String.mk (error_msgs.data.take 300)
            signals_used := signal_bundle.map (·.1)
            next_checks := []
            coverage := some none }
    else
      let ctx : EvalContext := { scope := scope, run_id := run_id, options := options }
      match evaluator.evaluate ctx signal_bundle with
      | .error e => .error e
      | .ok result =>
        .ok { control_id := control_id
              status := result.status
              severity := result.severity
              confidence := result.confidence
              confidence_score := some result.confidence_score
              evidence := result.evidence
              reason := result.reason
              signals_used := if result.signals_used.isEmpty
                then signal_bundle.map (·.1) else result.signals_used
              next_checks := result.next_checks
              coverage := some result.coverage }

/-! ## Claims C1 and C5 -/

/-- A registered evaluator whose `evaluate` raises (`raise ValueError("boom")`
in Python terms). -/
def boomEvaluator : Evaluator :=
  { control_id := "c1", required_signals := ["sig"],
    evaluate := fun _ _ => .error "boom" }

def okSig : SignalResult := { signal_name := "sig", status := .OK }

/-- C1, the code at the failing input: control `"c1"` has a registered
evaluator and its required signal is fetched OK, yet `evaluate_control`
surfaces the exception raised inside `evaluate` instead of a status-`Error`
result dict — `evaluator.evaluate(ctx, signal_bundle)` on line 109 of
`evaluators/registry.py` is not wrapped in any try/except. -/
theorem c1_evaluator_exception_escapes :
    evaluate_control [("c1", boomEvaluator)] (fun _ => okSig) "c1" {} =
      .error "boom" := rfl

/-- C5: a control with at least one required signal, all of whose fetched
signals have status Error or SignalError, evaluates to an `.ok` response with
status `"SignalError"` and `confidence_score` 0.0; that status is not an
automated status (it is excluded from maturity) but is in the risk scoring
engine's status filter. -/
theorem c5_signal_error_gate (evaluators : List (String × Evaluator))
    (bus : String → SignalResult) (cid : String) (scope : EvalScope)
    (ev : Evaluator)
    (hreg : evaluators.lookup cid = some ev)
    (hne : ev.required_signals ≠ [])
    (herr : ∀ n ∈ ev.required_signals,
      (bus n).status = .ERROR ∨ (bus n).status = .SIGNAL_ERROR) :
    (∃ resp, evaluate_control evaluators bus cid scope = .ok resp ∧
      resp.status = "SignalError" ∧ resp.confidence_score = some 0) ∧
    "SignalError" ∉ AUTO_STATUSES ∧ "SignalError" ∈ _RISK_STATUSES := by
  refine ⟨?_, by decide, by decide⟩
  have hae : (!(ev.required_signals.map (fun n => (n, bus n))).isEmpty &&
      (ev.required_signals.map (fun n => (n, bus n))).all (fun s =>
        s.2.status == .ERROR || s.2.status == .SIGNAL_ERROR)) = true := by
    rw [Bool.and_eq_true]
    constructor
    · rcases hx : ev.required_signals with _ | ⟨n0, ns⟩
      · exact absurd hx hne
      · simp [hx]
    · rw [List.all_eq_true]
      intro s hs
      obtain ⟨n, hn, hsn⟩ := List.mem_map.mp hs
      rcases herr n hn with h | h <;> simp [← hsn, h, statusBeq]
  simp only [evaluate_control, hreg, hae, if_true]
  exact ⟨_, rfl, rfl, rfl⟩

/-- A bus on which every signal fetch fails. -/
def errBus : String → SignalResult :=
  fun n => { signal_name := n, status := .ERROR, error_msg := "down" }

def c5Eval : Evaluator :=
  { control_id := "c5", required_signals := ["s1", "s2"],
    evaluate := fun _ _ => .ok { status := "Pass" } }

/-- Witness for `c5_signal_error_gate` at a two-signal control with both
fetches failing. -/
theorem c5_signal_error_gate_witness :
    ([("c5", c5Eval)].lookup "c5" = some c5Eval) ∧
    c5Eval.required_signals ≠ [] ∧
    (∀ n ∈ c5Eval.required_signals,
      (errBus n).status = .ERROR ∨ (errBus n).status = .SIGNAL_ERROR) ∧
    ((∃ resp, evaluate_control [("c5", c5Eval)] errBus "c5" {} = .ok resp ∧
      resp.status = "SignalError" ∧ resp.confidence_score = some 0) ∧
    "SignalError" ∉ AUTO_STATUSES ∧ "SignalError" ∈ _RISK_STATUSES) :=
  ⟨rfl, by decide, by decide,
    c5_signal_error_gate [("c5", c5Eval)] errBus "c5" {} c5Eval rfl
      (by decide) (by decide)⟩

/-! ## Claim C2 — `_multi_sub_provider` (`signals/registry.py` lines 371–419)

A subscription-scoped provider is `String → Except String SignalResult`
(`.error` models a raised exception).  The thread pool's `as_completed`
completion order is nondeterministic in the source; the embedding uses
submission order, which the merge semantics under test do not depend on. -/

/-- The per-subscription outcome in the fan-out path: a successful fetch gets
`_subscription_id` stamped into its raw, a raised exception is caught and
converted to an Error-status result. -/
def perSubFanOut (fetch_fn : String → Except String SignalResult) (sub : String) :
    SignalResult :=
  match fetch_fn sub with
  | .ok r => { r with raw := some (dset (r.raw.getD []) "_subscription_id" (.pStr sub)) }
  | .error e =>
    { signal_name := ""
      status := .ERROR
      error_msg := String.mk (sub.data.take 8) ++ ": " ++ e
      raw := some [("_subscription_id", .pStr sub)] }

def _multi_sub_provider (fetch_fn : String → Except String SignalResult)
    (merge_fn : Option (List SignalResult → SignalResult) := none)
    (scope : EvalScope) : Except String SignalResult :=
  let merger := merge_fn.getD _merge_signal_results
  match scope.subscription_ids with
  | [] =>
    .ok { signal_name := "", status := .NOT_AVAILABLE,
          error_msg := "No subscriptions in scope" }
  | [s] =>
    match fetch_fn s with
    | .error e => .error e
    | .ok r => .ok { r with raw := some (dset (r.raw.getD []) "_subscription_id" (.pStr s)) }
  | s0 :: s1 :: rest =>
    .ok (merger ((s0 :: s1 :: rest).map (perSubFanOut fetch_fn)))

/-- A provider that always raises. -/
def raisingFetch : String → Except String SignalResult :=
  fun _ => .error "ValueError: kaput"

/-- C2, counterexample: on a scope containing exactly one subscription the
provider call `fetch_fn(subs[0])` (line 393) sits outside any try/except, so
the exception escapes `_multi_sub_provider` instead of being converted to a
per-subscription Error result. -/
theorem c2_single_sub_exception_escapes :
    _multi_sub_provider raisingFetch none { subscription_ids := ["sub-1"] } =
      .error "ValueError: kaput" := rfl

/-- The good/bad fetch used by the C2 theorem's concrete part. -/
def fetchGB : String → Except String SignalResult := fun s =>
  if s = "good" then .ok { signal_name := "sig", status := .OK } else .error "boom"

/-- C2 (amended): on every scope with two or more subscriptions an exception
raised by the provider for one subscription is caught and converted to an
Error-status per-subscription result, the fan-out as a whole never raises,
and the per-subscription results — failures included — are handed to the
merge; concretely, with one good and one raising subscription the default
merge returns an OK result that still embeds the one failed subscription.
On a single-subscription scope the exception propagates uncaught
(`c2_single_sub_exception_escapes`). -/
theorem c2_multi_sub_isolation (fetch_fn : String → Except String SignalResult)
    (mf : Option (List SignalResult → SignalResult)) (scope : EvalScope)
    (h2 : 2 ≤ scope.subscription_ids.length) :
    (∃ r, _multi_sub_provider fetch_fn mf scope = .ok r) ∧
    (_multi_sub_provider fetch_fn mf scope =
      .ok ((mf.getD _merge_signal_results)
        (scope.subscription_ids.map (perSubFanOut fetch_fn)))) ∧
    (∀ sub ∈ scope.subscription_ids, ∀ e, fetch_fn sub = .error e →
      (perSubFanOut fetch_fn sub).status = .ERROR ∧
      (perSubFanOut fetch_fn sub).error_msg = String.mk (sub.data.take 8) ++ ": " ++ e) ∧
    (∃ r, _multi_sub_provider fetchGB none { subscription_ids := ["good", "bad"] } =
        .ok r ∧ r.status = .OK ∧
      ∃ m, r.raw = some m ∧ dget m "_subscription_errors" = some (.pInt 1)) := by
  refine ⟨?_, ?_, ?_, ?_⟩
  · match scope, h2 with
    | ⟨t, g, s0 :: s1 :: rest, rg⟩, _ => exact ⟨_, rfl⟩
  · match scope, h2 with
    | ⟨t, g, s0 :: s1 :: rest, rg⟩, _ => rfl
  · intro sub _ e he
    simp [perSubFanOut, he]
  · refine ⟨_, rfl, ?_, ?_⟩
    · simp +decide [_multi_sub_provider, _merge_signal_results, fetchGB, perSubFanOut,
        List.filter, statusBeq, dset]
    · refine ⟨[("_subscription_id", .pStr "good"), ("_subscriptions_assessed", .pInt 1),
        ("_subscription_errors", .pInt 1),
        ("_per_subscription", .pList [perSubEntry (perSubFanOut fetchGB "good"),
          perSubEntry (perSubFanOut fetchGB "bad")])], ?_, ?_⟩
      · simp +decide [_multi_sub_provider, _merge_signal_results, fetchGB, perSubFanOut,
          List.filter, statusBeq, dset, _merge_raw_dicts, mergeFuel, pvDepth, pvdDepth]
      · simp +decide [dget, List.find?]

/-- Witness for `c2_multi_sub_isolation` at the two-subscription scope. -/
theorem c2_multi_sub_isolation_witness :
    2 ≤ (EvalScope.subscription_ids { subscription_ids := ["good", "bad"] }).length ∧
    (∃ r, _multi_sub_provider fetchGB none { subscription_ids := ["good", "bad"] } = .ok r) :=
  ⟨by decide,
    (c2_multi_sub_isolation fetchGB none { subscription_ids := ["good", "bad"] }
      (by decide)).1⟩

/-! ## Claim C10 — `SignalBus.fetch` (`signals/registry.py` lines 581–620) -/

/-- The normalized cache key built by `fetch` (tenant, MG, sorted
subscription list, resource group). -/
structure ScopeKey where
  tenant_id : Option String
  mg_id : Option String
  subs : List String
  rg : Option String
  deriving Repr, DecidableEq

def scopeKeyOf (scope : EvalScope) : ScopeKey :=
  { tenant_id := scope.tenant_id
    mg_id := scope.management_group_id
    subs := List.insertionSort (fun a b => a ≤ b) scope.subscription_ids
    rg := scope.resource_group }

/-- Modelled from the spec: `SignalCache` — `signals/cache.py` is not among
the provided sources; §4.1 of the spec gives `get(name, scope,
freshness_seconds) -> SignalResult|None` and `put(name, scope, result)`,
key-normalized by scope, freshness-aware.  An entry answers a `get` while its
age is within `freshness_seconds` (no bound when the freshness is `None`). -/
structure CacheEntry where
  name : String
  scopeKey : ScopeKey
  result : SignalResult
  stored_at : ℕ

def cacheGet (c : List CacheEntry) (name : String) (key : ScopeKey) (now : ℕ)
    (freshness : Option ℕ) : Option SignalResult :=
  match c.find? (fun e => e.name == name && e.scopeKey == key) with
  | none => none
  | some e =>
    match freshness with
    | none => some e.result
    | some f => if now - e.stored_at ≤ f then some e.result else none

def cachePut (c : List CacheEntry) (name : String) (key : ScopeKey)
    (result : SignalResult) (now : ℕ) : List CacheEntry :=
  { name := name, scopeKey := key, result := result, stored_at := now } :: c

/-- One telemetry event of the bus (`_emit`). -/
structure Event where
  etype : String
  signal : String
  cache_hit : Option Bool := none
  ms : Option ℤ := none
  deriving Repr, DecidableEq

structure BusState where
  cache : List CacheEntry := []
  events : List Event := []

/-- The outcome of one `fetch`: its return value, the bus state after it, and
whether the provider was invoked. -/
structure FetchOutcome where
  result : SignalResult
  state : BusState
  providerCalled : Bool

/-- `SignalBus.fetch`: cache-checked; on a hit, emits `signal_returned` with
`cache_hit=True` and returns the cached result without touching the provider;
on a miss with a registered provider, emits `signal_requested`, invokes the
provider (stamping `signal_name`), caches the result and emits
`signal_returned` with `cache_hit=False`; an unknown signal name returns an
Error result without caching or emitting. -/
def SignalBus.fetch (providers : List (String × (EvalScope → SignalResult)))
    (st : BusState) (signal_name : String) (scope : EvalScope) (now : ℕ)
    (freshness_seconds : Option ℕ := none) : FetchOutcome :=
  let key := scopeKeyOf scope
  match cacheGet st.cache signal_name key now freshness_seconds with
  | some cached =>
    { result := cached
      state := { st with events := st.events ++
        [{ etype := "signal_returned", signal := signal_name,
           cache_hit := some true, ms := some 0 }] }
      providerCalled := false }
  | none =>
    match providers.lookup signal_name with
    | none =>
      { result :=
          { signal_name := signal_name
            status := SignalStatus.ERROR
            error_msg := "Unknown signal: " ++ signal_name }
        state := st
        providerCalled := false }
    | some provider =>
      let st1 : BusState := { st with events := st.events ++
        [{ etype := "signal_requested", signal := signal_name, cache_hit := none,
           ms := none }] }
      let result := { provider scope with signal_name := signal_name }
      let st2 : BusState :=
        { cache := cachePut st1.cache signal_name key result now,
          events := st1.events ++
            [{ etype := "signal_returned", signal := signal_name,
               cache_hit := some false, ms := some result.duration_ms }] }
      { result := result, state := st2, providerCalled := true }

/-- C10 (spec-modelled cache): starting from a cache miss, two successive
`fetch` calls with the identical `(signal_name, scope)` within the freshness
window invoke the provider exactly once — the first call invokes it, the
second is served from the cache, returns the first call's result, and emits
`signal_returned` telemetry with `cache_hit=true`. -/
theorem c10_cache_single_invocation
    (providers : List (String × (EvalScope → SignalResult)))
    (p : EvalScope → SignalResult) (name : String) (scope : EvalScope)
    (st0 : BusState) (t1 t2 f : ℕ)
    (hp : providers.lookup name = some p)
    (hmiss : cacheGet st0.cache name (scopeKeyOf scope) t1 (some f) = none)
    (hfresh : t2 - t1 ≤ f) :
    (SignalBus.fetch providers st0 name scope t1 (some f)).providerCalled = true ∧
    (SignalBus.fetch providers
        (SignalBus.fetch providers st0 name scope t1 (some f)).state
        name scope t2 (some f)).providerCalled = false ∧
    (SignalBus.fetch providers
        (SignalBus.fetch providers st0 name scope t1 (some f)).state
        name scope t2 (some f)).result =
      (SignalBus.fetch providers st0 name scope t1 (some f)).result ∧
    (SignalBus.fetch providers
        (SignalBus.fetch providers st0 name scope t1 (some f)).state
        name scope t2 (some f)).state.events =
      (SignalBus.fetch providers st0 name scope t1 (some f)).state.events ++
        [{ etype := "signal_returned", signal := name,
           cache_hit := some true, ms := some 0 }] := by
  have h1 : SignalBus.fetch providers st0 name scope t1 (some f) =
      { result := { p scope with signal_name := name }
        state := { st0 with
          cache := cachePut st0.cache name (scopeKeyOf scope)
            { p scope with signal_name := name } t1
          events := (st0.events ++
            [{ etype := "signal_requested", signal := name }]) ++
            [{ etype := "signal_returned", signal := name,
               cache_hit := some false, ms := some (p scope).duration_ms }] }
        providerCalled := true } := by
    simp only [SignalBus.fetch, hmiss, hp]
  rw [h1]
  have h2 : cacheGet (cachePut st0.cache name (scopeKeyOf scope)
      { p scope with signal_name := name } t1) name (scopeKeyOf scope) t2 (some f) =
      some { p scope with signal_name := name } := by
    simp [cacheGet, cachePut, List.find?, hfresh]
  simp only [SignalBus.fetch, h2]
  refine ⟨trivial, trivial, trivial, by simp⟩

/-- Witness for `c10_cache_single_invocation`: empty initial cache, a
one-provider registry, times 0 and 30 within a 60-second window. -/
theorem c10_cache_single_invocation_witness :
    ([("sig", fun _ => okSig)] :
        List (String × (EvalScope → SignalResult))).lookup "sig" =
      some (fun _ => okSig) ∧
    cacheGet (BusState.cache {}) "sig" (scopeKeyOf {}) 0 (some 60) = none ∧
    30 - 0 ≤ 60 ∧
    (SignalBus.fetch [("sig", fun _ => okSig)] {} "sig" {} 0 (some 60)).providerCalled
      = true :=
  ⟨rfl, rfl, by decide,
    (c10_cache_single_invocation [("sig", fun _ => okSig)] (fun _ => okSig) "sig" {}
      {} 0 30 60 rfl rfl (by decide)).1⟩

end ALZ
